import Mathlib

/-!
Verification of the calmhive voice assistant core: trigger-phrase detection,
context buffering, utterance finalization, command routing and cancellation.
All definitions are shallow embeddings of the Python sources under
`lib/voice/` (`consolidated/trigger_words.py`, `consolidated/voice_to_claude_code.py`,
`consolidated/voice_afk_listener.py`, `trigger_words.py`).  Python strings are
modelled as Lean `String` (lists of characters; all relevant inputs are ASCII),
and Python string primitives (`lower`, `strip`, `split`, `in`, `startswith`,
`count`, slicing, `" ".join`) are re-implemented below with structural
recursion so that every definition evaluates by kernel reduction.
-/

set_option maxRecDepth 100000
set_option maxHeartbeats 4000000

/-! ### Python string primitives -/

/-- Whitespace test matching Python `str.split()` / `str.strip()` on ASCII input. -/
def isSpaceChar (c : Char) : Bool :=
  c = ' ' || c = '\t' || c = '\n' || c = '\r' || c = '\x0b' || c = '\x0c'

/-- ASCII lower-casing of one character, as Python `str.lower` does on ASCII. -/
def lowerChar (c : Char) : Char :=
  if 65 ≤ c.toNat ∧ c.toNat ≤ 90 then Char.ofNat (c.toNat + 32) else c

/-- Python `str.lower()` (ASCII fragment). -/
def lowerStr (s : String) : String :=
  ⟨s.data.map lowerChar⟩

/-- Python `str.strip()`: drop leading and trailing whitespace. -/
def pystrip (s : String) : String :=
  ⟨((s.data.dropWhile isSpaceChar).reverse.dropWhile isSpaceChar).reverse⟩

/-- Worker for `pysplit`: accumulates the current word (reversed) in `acc`. -/
def splitWsGo : List Char → List Char → List String
  | [], acc => if acc.isEmpty then [] else [⟨acc.reverse⟩]
  | c :: rest, acc =>
    if isSpaceChar c then
      if acc.isEmpty then splitWsGo rest []
      else (⟨acc.reverse⟩ : String) :: splitWsGo rest []
    else splitWsGo rest (c :: acc)

/-- Python `str.split()` with no argument: split on whitespace runs, no empty parts. -/
def pysplit (s : String) : List String :=
  splitWsGo s.data []

/-- Does `sub` occur as a contiguous sublist of `s`?  (Python `sub in s` on char lists.) -/
def listContainsSub (sub : List Char) : List Char → Bool
  | [] => sub.isEmpty
  | c :: rest => sub.isPrefixOf (c :: rest) || listContainsSub sub rest

/-- Python substring test `needle in hay`. -/
def strContainsSub (hay needle : String) : Bool :=
  listContainsSub needle.data hay.data

/-- Python `hay.startswith(pre)`. -/
def pyStartsWith (hay pre : String) : Bool :=
  pre.data.isPrefixOf hay.data

/-- Python slicing `s[n:]` (character index; inputs are ASCII). -/
def strDrop (s : String) (n : Nat) : String :=
  ⟨s.data.drop n⟩

/-- Worker for `pyCount`: non-overlapping occurrence count; `skip` chars are
consumed before the next match attempt. -/
def countSubGo (sub : List Char) : List Char → Nat → Nat
  | [], _ => 0
  | _ :: rest, Nat.succ k => countSubGo sub rest k
  | c :: rest, 0 =>
    if sub.isPrefixOf (c :: rest) then 1 + countSubGo sub rest (sub.length - 1)
    else countSubGo sub rest 0

/-- Python `s.count(sub)`: number of non-overlapping occurrences. -/
def pyCount (s sub : String) : Nat :=
  if sub.data.isEmpty then s.length + 1 else countSubGo sub.data s.data 0

/-- Python `" ".join(parts)`. -/
def joinSpace : List String → String
  | [] => ""
  | [x] => x
  | x :: y :: rest => x ++ " " ++ joinSpace (y :: rest)

/-- The apostrophe character (U+0027), used in trigger phrases such as `let,s code`
(written with an apostrophe in the source). -/
def aposChar : Char := Char.ofNat 39

/-- The one-character apostrophe string. -/
def aposStr : String := ⟨[aposChar]⟩

/-! ### Trigger vocabulary (`lib/voice/consolidated/trigger_words.py`) -/

/-- Table `TRIGGER_VARIATIONS` from `consolidated/trigger_words.py`: canonical trigger
key paired with its variation list, in source order. -/
def TRIGGER_VARIATIONS : List (String × List String) :=
  [("friend", ["friend", "friends", "friendly", "befriend", "my friend", "hey friend",
               "hello friend", "hi friend", "now friend", "ok friend", "okay friend",
               "fiend", "fren", "front", "trend", "end", "rent"]),
   ("code", ["code helper", "code buddy", "code friend", "coding", "let" ++ aposStr ++ "s code",
             "start coding", "code with me", "code assistant"]),
   ("assistant", ["assistant please", "my assistant", "hey assistant", "Claude assistant",
                  "assistants", "assistance", "assisting", "assist me"]),
   ("project", ["project helper", "project buddy", "project assistant", "my project",
                "help with project", "project work", "project setup"]),
   ("calmhive", ["calmhive", "calm hive", "calm helper", "hive helper",
                 "calm hive helper", "calmhive assistant"]),
   ("do", ["do this now", "do this for me", "do this please", "do that for me"]),
   ("help", ["help me with", "help me out", "help with this", "can you help",
             "could you help", "i need help with"]),
   ("please", ["could you please", "would you please", "please assist",
               "please help me", "if you please"])]

/-- List `ALL_TRIGGERS`: the flattening `[primary] ++ variations` per entry, in order,
duplicates retained (the source does not de-duplicate this list). -/
def ALL_TRIGGERS : List String :=
  (TRIGGER_VARIATIONS.map (fun p => p.1 :: p.2)).flatten

/-- Bare greetings that never trigger on their own. -/
def GREETINGS : List String := ["hello", "hi", "hey", "ok", "okay"]

/-- Word stems accepted directly after a greeting (`contains_trigger_word`, step 4). -/
def TRIGGER_STARTS : List String := ["assist", "friend", "code", "calm", "project", "help"]

/-- The fixed three-word action sequences of `contains_trigger_word`. -/
def ACTION_TRIPLETS : List (String × String × String) :=
  [("let", aposStr ++ "s", "code"), ("help", "me", "with"), ("do", "this", "now"),
   ("could", "you", "please"), ("code", "with", "me"), ("i", "need", "help")]

/-- The emphasized-request substrings of `contains_trigger_word`. -/
def EMPHASIS_PATTERNS : List String :=
  ["please help", "need assistance", "can you do", "would you do",
   "need your help", "want your help", "help me out"]

/-- The greeting-plus-stem / action-triplet scan of `contains_trigger_word`
(the `for i in range(len(words) - 1)` loop). -/
def pairTripletHit (words : List String) : Bool :=
  (List.range (words.length - 1)).any (fun i =>
    (GREETINGS.any (fun g => words.getD i "" = g) &&
       TRIGGER_STARTS.any (fun st => pyStartsWith (words.getD (i + 1) "") st)) ||
    (decide (i < words.length - 2) &&
       ACTION_TRIPLETS.any (fun t =>
         words.getD i "" = t.1 && words.getD (i + 1) "" = t.2.1 &&
           words.getD (i + 2) "" = t.2.2)))

/-- One iteration of the per-trigger loop of `contains_trigger_word`
(the `for trigger in ALL_TRIGGERS` loop with the too-short guard): the trigger
must occur as a substring, must not be a bare word of an utterance shorter
than 3 words, and must then match as an in-order word sequence (multi-word
trigger) or as a complete word (single-word trigger). -/
def triggerLoopHit (text_lower : String) (words : List String) (t : String) : Bool :=
  strContainsSub text_lower t &&
  !(decide (words.length < 3) && words.any (fun w => w = t)) &&
  (let tw := pysplit t
   if tw.length > 1 then
     (List.range (words.length - tw.length + 1)).any
       (fun i => (words.drop i).take tw.length = tw)
   else words.any (fun w => w = t))

/-- Function `contains_trigger_word` from `consolidated/trigger_words.py`, the boolean
trigger matcher used by the assistant (`check_for_trigger_word` delegates to it). -/
def contains_trigger_word (text : String) : Bool :=
  if text = "" then false
  else
    let text_lower := lowerStr text
    if GREETINGS.any (fun g => pystrip text_lower = g) then false
    else
      let padded := " " ++ text_lower ++ " "
      if ALL_TRIGGERS.any (fun t =>
           decide ((pysplit t).length > 1) && strContainsSub padded (" " ++ t ++ " ")) then
        true
      else if ALL_TRIGGERS.any (triggerLoopHit text_lower (pysplit text_lower)) then
        true
      else if pairTripletHit (pysplit text_lower) then
        true
      else if EMPHASIS_PATTERNS.any (fun p => strContainsSub text_lower p) then
        true
      else false

/-- Function `check_for_trigger_word` from `consolidated/voice_to_claude_code.py`:
the module `.trigger_words` is importable in the consolidated package, so it
simply delegates to `contains_trigger_word`. -/
def check_for_trigger_word (text : String) : Bool :=
  contains_trigger_word text


/-! ### Enhanced trigger vocabulary (`lib/voice/trigger_words.py`) -/

/-- Table `TRIGGER_VARIATIONS` from the enhanced module `lib/voice/trigger_words.py`
(the vocabulary of the confidence-scored matcher), in source order. -/
def TRIGGER_VARIATIONS_enhanced : List (String × List String) :=
  [("claude", ["claude", "cloud", "clod", "clawed", "cloud", "clout", "clown", "claud",
               "clod", "clawed", "claude" ++ aposStr ++ "s", "clouds", "cloudy"]),
   ("friend", ["friend", "friends", "friendly", "befriend", "my friend", "hey friend",
               "fiend", "fren", "front", "trend", "end", "rent", "fred", "fried"]),
   ("code", ["code", "coder", "coding", "encode", "decode", "coded", "codes",
             "code helper", "code buddy", "let" ++ aposStr ++ "s code", "kode", "coat", "cold"]),
   ("calmhive", ["calmhive", "calm hive", "calm-hive", "call hive", "call mine",
                 "calm mind", "calm five", "com hive", "bee hive", "bee helper"]),
   ("assistant", ["assistant", "assist", "assistance", "assistive", "assisting", "assists",
                  "assist me", "assistant please", "my assistant", "hey assistant"]),
   ("help", ["help", "helper", "helping", "helped", "helps", "help me", "can you help",
             "please help", "i need help", "would you help"]),
   ("hey", ["hey", "hi", "hello", "hey there", "hey you", "hey now", "hay", "they", "hay"]),
   ("ok", ["ok", "okay", "ok now", "alright", "all right", "o.k.", "ok then"]),
   ("voice", ["voice", "voice assistant", "voice helper", "voice mode", "by voice",
              "with voice", "through voice", "using voice"]),
   ("command", ["command", "do this", "execute", "run", "perform", "please", "can you",
                "would you", "could you", "execute command", "run command"])]

/-! ### Dynamic context capacity (`voice_to_claude_code.py`, `get_dynamic_context_length`) -/

/-- Default `CONTEXT_LENGTH_BASE`. -/
def CONTEXT_LENGTH_BASE : Nat := 30

/-- Default `CONTEXT_LENGTH_MAX`. -/
def CONTEXT_LENGTH_MAX : Nat := 100

/-- The punctuation markers counted for the complexity bonus. -/
def COMPLEXITY_MARKERS : List String := [".", ",", "?", "!", ";", ":", "(", ")", "-"]

/-- Length-bonus family: the `if text_length > 500 / elif > 200 / elif > 100`
chain — only the highest crossed threshold contributes. -/
def lengthBonus (n : Nat) : Nat :=
  if n > 500 then 20 else if n > 200 then 10 else if n > 100 then 5 else 0

/-- Complexity-bonus family: the `if complexity_count > 15 / elif > 10 / elif > 5` chain. -/
def complexityBonus (n : Nat) : Nat :=
  if n > 15 then 15 else if n > 10 then 10 else if n > 5 then 5 else 0

/-- Trigger-bonus family: the `if trigger_count > 3 / elif > 1 / elif > 0` chain. -/
def triggerBonus (n : Nat) : Nat :=
  if n > 3 then 15 else if n > 1 then 10 else if n > 0 then 5 else 0

/-- Count `complexity_count`: sum of `text.count(marker)` over the punctuation markers. -/
def complexityCount (text : String) : Nat :=
  (COMPLEXITY_MARKERS.map (fun m => pyCount text m)).sum

/-- Count `trigger_count`: sum of `text_lower.count(trigger)` over `ALL_TRIGGERS`
(duplicated list entries counted twice, as in the source). -/
def triggerCount (text : String) : Nat :=
  (ALL_TRIGGERS.map (fun t => pyCount (lowerStr text) t)).sum

/-- Function `get_dynamic_context_length` from `consolidated/voice_to_claude_code.py`:
base plus the three family bonuses, clamped above by `CONTEXT_LENGTH_MAX`. -/
def get_dynamic_context_length (text : String) : Nat :=
  if text = "" then CONTEXT_LENGTH_BASE
  else
    min (CONTEXT_LENGTH_BASE + lengthBonus text.length
          + complexityBonus (complexityCount text) + triggerBonus (triggerCount text))
      CONTEXT_LENGTH_MAX

/-! ### Finalization back-scan (`voice_to_claude_code.py`, final callback of `listen`) -/

/-- The backwards loop `for i in range(len(buffer) - 1, -1, -1)` searching the
most recent entry matching a trigger, scanning indices below `n`. -/
def backscanFrom (buffer : List String) : Nat → Option Nat
  | 0 => none
  | Nat.succ i =>
    if check_for_trigger_word (buffer.getD i "") then some i else backscanFrom buffer i

/-- Index of the most recent buffer entry that independently matches a trigger. -/
def backscanIdx (buffer : List String) : Option Nat :=
  backscanFrom buffer buffer.length

/-- The de-duplication loop of the final callback: an entry is skipped exactly
when it is a substring of its immediate successor in the selected range. -/
def dedupKeep : List String → List String
  | [] => []
  | [x] => [x]
  | x :: y :: rest =>
    if strContainsSub y x then dedupKeep (y :: rest) else x :: dedupKeep (y :: rest)

/-- Command assembly of the final-transcript callback (`voice_to_claude_code.py`
lines 752–791): if the final text does not itself match a trigger and the
buffer is non-empty, back-scan for the most recent trigger entry; within the
last 5 entries, join the de-duplicated tail plus the final text, else fall
back to the final text alone. -/
def finalizeCommand (buffer : List String) (text : String) : String :=
  if !check_for_trigger_word text && !buffer.isEmpty then
    match backscanIdx buffer with
    | some idx =>
      if buffer.length - idx ≤ 5 then
        joinSpace (dedupKeep (buffer.drop idx) ++ [text])
      else text
    | none => text
  else text

/-- Position-level keep-condition of the de-duplication loop: position `i` is
kept iff it is the last position or the entry is not a substring of its
immediate successor. -/
def keepAt (l : List String) (i : Nat) : Bool :=
  decide (i + 1 ≥ l.length) || !strContainsSub (l.getD (i + 1) "") (l.getD i "")

/-- Index-based specification of the de-duplication loop. -/
def dedupIndices (l : List String) : List String :=
  ((List.range l.length).filter (keepAt l)).map (fun i => l.getD i "")

/-! ### Stop-command detection (`voice_to_claude_code.py`, `check_for_stop_command`) -/

/-- The stop command words and phrases. -/
def STOP_PATTERNS : List String :=
  ["stop", "cancel", "abort", "quit", "exit", "halt",
   "terminate", "break", "stop command", "cancel command"]

/-- Query-indicator leading words: if one of these follows a leading stop word,
the text is treated as a query rather than a stop command. -/
def QUERY_INDICATORS : List String :=
  ["can", "could", "what", "who", "when", "where", "how", "why",
   "is", "are", "was", "tell", "show", "find", "search", "help",
   "please", "explain", "describe", "list", "create", "make"]

/-- Explicit stop phrases that are definitely commands. -/
def DEFINITE_STOP_PHRASES : List String :=
  ["stop command", "cancel command", "i want to stop", "stop now please",
   "please stop now", "stop execution", "cancel execution", "abort execution",
   "abort this", "cancel this", "stop this"]

/-- One pattern of the `text_lower.startswith(f"{pattern} ")` loop: the text
starts with the stop word plus a space and no query indicator appears among
the first three following words. -/
def stopStartHit (text_lower : String) (p : String) : Bool :=
  pyStartsWith text_lower (p ++ " ") &&
  !(((pysplit (pystrip (strDrop text_lower p.length))).take 3).any
      (fun w => QUERY_INDICATORS.any (fun q => w = q)))

/-- Function `check_for_stop_command` from `consolidated/voice_to_claude_code.py`
(nested in `process_message`): short utterances containing a stop word,
utterances starting with a stop word not followed by a query indicator, and
explicit stop phrases. -/
def check_for_stop_command (text : String) : Bool :=
  if text = "" then false
  else
    let text_lower := lowerStr text
    let words := pysplit text_lower
    let word_count := words.length
    if decide (word_count ≤ 3) &&
        words.any (fun w => STOP_PATTERNS.any (fun p => w = p)) then true
    else if decide (word_count ≤ 3) && decide (word_count = 2) &&
        STOP_PATTERNS.any (fun p => strContainsSub text_lower p) then true
    else if STOP_PATTERNS.any (stopStartHit text_lower) then true
    else if DEFINITE_STOP_PHRASES.any (fun p => strContainsSub text_lower p) then true
    else false

/-! ### `process_message` routing and history effects (`voice_to_claude_code.py`) -/

/-- Default `MIN_TEXT_LENGTH`. -/
def MIN_TEXT_LENGTH : Nat := 10

/-- Conversation roles. -/
inductive Role where
  | user
  | assistant
deriving DecidableEq, Repr

/-- One conversation-history entry (`{"role": ..., "content": ...}`). -/
structure HEntry where
  role : Role
  content : String
deriving DecidableEq, Repr

/-- Outcome of the tracked executor subprocess as observed by `process_message`:
cancellation by the voice monitor, natural completion with an exit code and
output, or a keyboard interrupt during the wait. -/
inductive ExecEvent where
  | voiceCancel
  | completed (returncode : Int) (stdout : String)
  | keyboardInterrupt
deriving DecidableEq, Repr

/-- The cancellation message returned when a stop command is heard up front. -/
def STOP_RESULT : String := "Request cancelled by user command. Ready for new input."

/-- The message returned when the subprocess is cancelled by the voice monitor. -/
def VOICE_CANCEL_RESULT : String := "Processing cancelled by voice command. Ready for new input."

/-- The apology returned when the subprocess fails. -/
def ERROR_RESPONSE : String :=
  "I" ++ aposStr ++
    "m sorry, but I encountered an error while processing your request. Please try again."

/-- State-passing model of `ClaudeCodeAssistant.process_message`
(`voice_to_claude_code.py` lines 1199–1516): returns the new conversation
history, whether `save_conversation_history` was called, and the returned
result (`none` models Python `None`).  The stop-command check precedes the
trigger check; the user message is appended to the history only after all
guards pass and before the executor runs. -/
def process_message_model (history : List HEntry) (message : String) (ev : ExecEvent) :
    List HEntry × Bool × Option String :=
  if check_for_stop_command message then (history, false, some STOP_RESULT)
  else if !check_for_trigger_word message then (history, false, none)
  else if message.length < MIN_TEXT_LENGTH then (history, false, none)
  else
    let h1 := history ++ [⟨Role.user, message⟩]
    match ev with
    | ExecEvent.voiceCancel => (h1, false, some VOICE_CANCEL_RESULT)
    | ExecEvent.keyboardInterrupt => (h1, false, none)
    | ExecEvent.completed rc out =>
      if rc = 0 then (h1 ++ [⟨Role.assistant, out⟩], true, some out)
      else (h1 ++ [⟨Role.assistant, ERROR_RESPONSE⟩], true, some ERROR_RESPONSE)

/-! ### Cancellation race (`voice_to_claude_code.py`, voice cancel monitor) -/

/-- Result of the section of `process_message` after `communicate()`. -/
inductive ProcResult where
  | cancelled
  | completed (out : String)
  | failed
deriving DecidableEq, Repr

/-- The decision made after `process.communicate()` returns
(`voice_to_claude_code.py` lines 1437–1495): the `process_cancelled` flag, as
read at that point, wins over the own exit status of the subprocess. -/
def postCommunicate (process_cancelled : Bool) (returncode : Int) (stdout : String) :
    ProcResult :=
  if process_cancelled then ProcResult.cancelled
  else if returncode = 0 then ProcResult.completed stdout
  else ProcResult.failed

/-- One interleaving of the main thread with the voice cancel monitor, on an
abstract discrete timeline: `completionStep` is when `communicate()` returns
(the subprocess has completed), `checkStep` is when the main thread reads
`process_cancelled` (always after completion), and `flagStep` is when the
monitor thread sets the flag (`none` when it never fires).  The monitor sets
the flag unconditionally on hearing a stop word (line 1369), whether or not
the subprocess is still alive. -/
structure CancelRace where
  completionStep : Nat
  flagStep : Option Nat
  checkStep : Nat
deriving DecidableEq, Repr

/-- The value of `process_cancelled` observed at the check step: true iff the
monitor set it no later than the read. -/
def flagAtCheck (r : CancelRace) : Bool :=
  match r.flagStep with
  | none => false
  | some s => decide (s ≤ r.checkStep)

/-- Outcome of the tracked operation under the race interleaving `r`. -/
def raceOutcome (r : CancelRace) (returncode : Int) (stdout : String) : ProcResult :=
  postCommunicate (flagAtCheck r) returncode stdout

/-! ### AFk listener command routing (`voice_afk_listener.py`, `process_command`) -/

/-- The routing outcome of `VoiceAFkListener.process_command`: empty input and
cooldown skips return `False` without classification; otherwise the first
matching keyword set (in priority order) selects the handler, and unmatched
text yields the unknown-command apology (also returning `False`). -/
inductive AfkOutcome where
  | emptyInput
  | cooldownSkipped
  | status
  | pause
  | resume
  | summarize
  | complete
  | unknown
deriving DecidableEq, Repr

/-- The keyword classification of `process_command` (`voice_afk_listener.py`
lines 424–439): substring scans over the lowercased text, first matching set
wins. -/
def classify_afk (command_lower : String) : AfkOutcome :=
  if ["status", "progress", "update", "how", "going"].any
      (fun w => strContainsSub command_lower w) then AfkOutcome.status
  else if ["pause", "stop", "wait", "hold"].any
      (fun w => strContainsSub command_lower w) then AfkOutcome.pause
  else if ["resume", "continue", "start", "go"].any
      (fun w => strContainsSub command_lower w) then AfkOutcome.resume
  else if ["summarize", "summary", "results", "findings"].any
      (fun w => strContainsSub command_lower w) then AfkOutcome.summarize
  else if ["complete", "finish", "done", "end"].any
      (fun w => strContainsSub command_lower w) then AfkOutcome.complete
  else AfkOutcome.unknown

/-- Cooldown `command_cooldown` (seconds). -/
def COMMAND_COOLDOWN : Nat := 3

/-- State-passing model of `VoiceAFkListener.process_command`
(`voice_afk_listener.py` lines 406–439): `last` is `self.last_command_time`,
`now` the current time (whole seconds; `now ≥ last` in any real execution).
Returns the updated `last_command_time` and the routing outcome.  Note that
`self.last_command_time = current_time` runs before classification, so it is
updated even for unknown commands. -/
def process_command_model (last now : Nat) (command_text : String) : Nat × AfkOutcome :=
  if command_text = "" then (last, AfkOutcome.emptyInput)
  else if now - last < COMMAND_COOLDOWN then (last, AfkOutcome.cooldownSkipped)
  else (now, classify_afk (lowerStr command_text))

/-! ### Concrete inputs used by witnesses -/

/-- A 600-character text: 568 filler characters, four occurrences of the
trigger word `end`, and 16 commas. -/
def bigText : String :=
  ⟨List.replicate 568 'z' ++ String.data "end end end end ,,,,,,,,,,,,,,,,"⟩

/-! ### Claims -/

/-- C2: the stop-command check runs before trigger detection in
`process_message`; on a hit processing short-circuits with the cancellation
result, leaving the history untouched and never reaching the executor
(the outcome is independent of the executor event).  Moreover `"stop"`,
`"stop the process"` and `"I want to stop now"` are classified as stop
commands while `"stop, can you tell me about X"` is not. -/
theorem c2_stop_precedence :
    (∀ (history : List HEntry) (message : String) (ev : ExecEvent),
        check_for_stop_command message = true →
        process_message_model history message ev = (history, false, some STOP_RESULT)) ∧
    check_for_stop_command "stop" = true ∧
    check_for_stop_command "stop the process" = true ∧
    check_for_stop_command "stop, can you tell me about X" = false ∧
    check_for_stop_command "I want to stop now" = true := by
  refine ⟨?_, by decide, by decide, by decide, by decide⟩
  intro history message ev hstop
  simp [process_message_model, hstop]

/-- Witness for C2 at the concrete message `"stop"`. -/
theorem c2_stop_precedence_witness :
    process_message_model [] "stop" (ExecEvent.completed 0 "done")
      = ([], false, some STOP_RESULT) :=
  c2_stop_precedence.1 [] "stop" (ExecEvent.completed 0 "done") (by decide)

/-- C5: every single-word utterance equal to a bare trigger variation is
rejected by the consolidated matcher (the too-weak-alone guard), while
`"Hey friend, can you help?"` matches. -/
theorem c5_weak_single_word :
    (∀ v, v ∈ ALL_TRIGGERS → (pysplit v).length = 1 → contains_trigger_word v = false) ∧
    contains_trigger_word "Hey friend, can you help?" = true := by
  constructor
  · decide
  · decide

/-- Witness for C5 at the variation `"friend"`. -/
theorem c5_weak_single_word_witness :
    contains_trigger_word "friend" = false :=
  c5_weak_single_word.1 "friend" (by decide) (by decide)

/-- C6: a structured command arriving strictly within the cooldown window of
the previously accepted command is skipped without touching state or any
handler; once at least the cooldown has elapsed the command is accepted and
routed to its classified handler. -/
theorem c6_cooldown :
    ∀ (last now : Nat) (cmd : String) (k : AfkOutcome),
      cmd ≠ "" → last ≤ now →
      ((now - last < COMMAND_COOLDOWN →
          process_command_model last now cmd = (last, AfkOutcome.cooldownSkipped)) ∧
       (COMMAND_COOLDOWN ≤ now - last → classify_afk (lowerStr cmd) = k →
          process_command_model last now cmd = (now, k))) := by
  intro last now cmd k hne _hle
  constructor
  · intro hlt
    simp [process_command_model, hne, hlt]
  · intro hge hk
    simp [process_command_model, hne, Nat.not_lt.mpr hge, hk]

/-- Witness for C6: `"status"` arriving 1 second after the last command is
skipped; arriving 4 seconds after, it is dispatched to the status handler. -/
theorem c6_cooldown_witness :
    process_command_model 5 6 "status" = (5, AfkOutcome.cooldownSkipped) ∧
    process_command_model 5 9 "status" = (9, AfkOutcome.status) :=
  ⟨(c6_cooldown 5 6 "status" AfkOutcome.status (by decide) (by decide)).1 (by decide),
   (c6_cooldown 5 9 "status" AfkOutcome.status (by decide) (by decide)).2
     (by decide) (by decide)⟩

/-- C7 counterexample: an unmatched command (`"xyzzy"`) reaches the
unknown-command outcome, yet `last_command_time` is changed (from 0 to 10),
because `process_command` stores the current time before classification —
refuting the claim that an unknown command causes no state change. -/
theorem c7_unknown_counterexample :
    (process_command_model 0 10 "xyzzy").2 = AfkOutcome.unknown ∧
    (process_command_model 0 10 "xyzzy").1 = 10 ∧
    (process_command_model 0 10 "xyzzy").1 ≠ 0 := by
  decide

/-- C7 amended: a non-empty utterance matching none of the five keyword sets,
arriving outside the cooldown window, produces the unknown-command outcome
(spoken apology, returning `False`) and the only state change is that the
last-command timestamp is set to the current time. -/
theorem c7_unknown_amended :
    ∀ (last now : Nat) (cmd : String),
      cmd ≠ "" → ¬(now - last < COMMAND_COOLDOWN) →
      classify_afk (lowerStr cmd) = AfkOutcome.unknown →
      process_command_model last now cmd = (now, AfkOutcome.unknown) := by
  intro last now cmd h1 h2 h3
  simp [process_command_model, h1, h2, h3]

/-- Witness for the amended C7 at the concrete command `"xyzzy"`. -/
theorem c7_unknown_amended_witness :
    process_command_model 0 10 "xyzzy" = (10, AfkOutcome.unknown) :=
  c7_unknown_amended 0 10 "xyzzy" (by decide) (by decide) (by decide)

/-- C9 counterexample: in the consolidated vocabulary the canonical key
`"code"` is not a member of its own variation set. -/
theorem c9_vocab_counterexample :
    TRIGGER_VARIATIONS.any (fun p => p.1 = "code" && !(p.2.any (fun v => v = p.1))) = true := by
  decide

/-- C9 amended: the enhanced vocabulary (`lib/voice/trigger_words.py`)
satisfies the invariant for every canonical key, whereas in the consolidated
vocabulary (`lib/voice/consolidated/trigger_words.py`) only `"friend"` and
`"calmhive"` appear in their own variation sets. -/
theorem c9_vocab_amended :
    TRIGGER_VARIATIONS_enhanced.all (fun p => p.2.any (fun v => v = p.1)) = true ∧
    (TRIGGER_VARIATIONS.filter (fun p => p.2.any (fun v => v = p.1))).map Prod.fst
      = ["friend", "calmhive"] := by
  constructor
  · decide
  · decide

/-- C3: the dynamic context capacity always lies within
`[CONTEXT_LENGTH_BASE, CONTEXT_LENGTH_MAX]`; within each bonus family only the
single highest crossed threshold contributes (crossing every length /
complexity / trigger threshold yields 20 / 15 / 15, not a cumulative sum); and
a 600-character text with more than 15 punctuation markers and more than 3
trigger occurrences gets capacity `30 + 20 + 15 + 15 = 80`, clamped to max. -/
theorem c3_context_capacity :
    (∀ text, CONTEXT_LENGTH_BASE ≤ get_dynamic_context_length text ∧
        get_dynamic_context_length text ≤ CONTEXT_LENGTH_MAX) ∧
    (∀ n, 500 < n → lengthBonus n = 20) ∧
    (∀ n, 15 < n → complexityBonus n = 15) ∧
    (∀ n, 3 < n → triggerBonus n = 15) ∧
    (∀ text, text.length = 600 → 15 < complexityCount text → 3 < triggerCount text →
        get_dynamic_context_length text = 80) := by
  refine ⟨?_, ?_, ?_, ?_, ?_⟩
  · intro text
    unfold get_dynamic_context_length CONTEXT_LENGTH_BASE CONTEXT_LENGTH_MAX
    split <;> omega
  · intro n h
    simp [lengthBonus, h]
  · intro n h
    simp [complexityBonus, h]
  · intro n h
    simp [triggerBonus, h]
  · intro text hlen hc ht
    have hne : text ≠ "" := by
      intro he
      rw [he] at hlen
      simp at hlen
    have h1 : lengthBonus text.length = 20 := by rw [hlen]; decide
    have h2 : complexityBonus (complexityCount text) = 15 := by simp [complexityBonus, hc]
    have h3 : triggerBonus (triggerCount text) = 15 := by simp [triggerBonus, ht]
    unfold get_dynamic_context_length
    rw [if_neg hne, h1, h2, h3]
    decide

/-- Witness for C3: general bounds at `"hi"`, the bonus families at
fully-crossed thresholds, and the 600-character high-punctuation
multi-trigger text `bigText`. -/
theorem c3_context_capacity_witness :
    (CONTEXT_LENGTH_BASE ≤ get_dynamic_context_length "hi" ∧
        get_dynamic_context_length "hi" ≤ CONTEXT_LENGTH_MAX) ∧
    lengthBonus 600 = 20 ∧ complexityBonus 16 = 15 ∧ triggerBonus 4 = 15 ∧
    get_dynamic_context_length bigText = 80 :=
  ⟨c3_context_capacity.1 "hi",
   c3_context_capacity.2.1 600 (by decide),
   c3_context_capacity.2.2.1 16 (by decide),
   c3_context_capacity.2.2.2.1 4 (by decide),
   c3_context_capacity.2.2.2.2 bigText (by decide) (by decide) (by decide)⟩

/-- C4 counterexample: interleaving with completion at step 0, the stop-flag
set at step 1 (strictly after natural completion) and the flag
check at step 2.  Although the subprocess completed naturally with exit code 0
and output `"done"`, `process_message` returns the cancellation result, not
the true output — refuting the claim that a flag set after natural completion
cannot convert a completed result into a cancelled outcome. -/
theorem c4_race_counterexample :
    raceOutcome (CancelRace.mk 0 (some 1) 2) 0 "done" = ProcResult.cancelled ∧
    raceOutcome (CancelRace.mk 0 (some 1) 2) 0 "done" ≠ ProcResult.completed "done" ∧
    (CancelRace.mk 0 (some 1) 2).completionStep < 1 ∧
    (CancelRace.mk 0 (some 1) 2).completionStep < (CancelRace.mk 0 (some 1) 2).checkStep := by
  decide

/-- C4 amended: the returned result is decided solely by the stop-flag value
at the post-`communicate()` check; only when the flag is set strictly after
that check (or never) is the true result of the subprocess returned.  A flag set
between natural completion and the check still converts the outcome into a
cancellation. -/
theorem c4_race_amended :
    ∀ (r : CancelRace) (returncode : Int) (stdout : String),
      (∀ s, r.flagStep = some s → r.checkStep < s) →
      raceOutcome r returncode stdout = postCommunicate false returncode stdout := by
  intro r rc out h
  have hf : flagAtCheck r = false := by
    unfold flagAtCheck
    cases hfs : r.flagStep with
    | none => rfl
    | some s =>
      simp only [decide_eq_false_iff_not]
      exact Nat.not_le.mpr (h s hfs)
  unfold raceOutcome
  rw [hf]

/-- Witness for the amended C4: flag set at step 5, after the check at step 2. -/
theorem c4_race_amended_witness :
    raceOutcome (CancelRace.mk 0 (some 5) 2) 0 "done" = ProcResult.completed "done" :=
  (c4_race_amended (CancelRace.mk 0 (some 5) 2) 0 "done"
      (by intro s hs; injection hs with h; subst h; decide)).trans (by decide)

/-- C8 counterexample: a voice-cancelled call beginning from the empty history
returns the neutral cancellation result, but the history afterwards contains
the user message of the aborted attempt — it is not equal to the history before
the call. -/
theorem c8_cancel_history_counterexample :
    process_message_model [] "hey friend please write a function" ExecEvent.voiceCancel
      = ([HEntry.mk Role.user "hey friend please write a function"], false,
          some VOICE_CANCEL_RESULT) ∧
    ([HEntry.mk Role.user "hey friend please write a function"] : List HEntry) ≠ [] := by
  decide

/-- C8 amended: on a voice- or keyboard-triggered abort, `process_message`
recovers with the neutral ready-for-new-input result (respectively no result),
never appends an assistant entry, and does not persist the history — but the
user message appended before execution remains in the in-memory history,
which therefore equals the prior history extended by exactly that entry. -/
theorem c8_cancel_history_amended :
    ∀ (history : List HEntry) (message : String),
      check_for_stop_command message = false →
      check_for_trigger_word message = true →
      MIN_TEXT_LENGTH ≤ message.length →
      process_message_model history message ExecEvent.voiceCancel
        = (history ++ [HEntry.mk Role.user message], false, some VOICE_CANCEL_RESULT) ∧
      process_message_model history message ExecEvent.keyboardInterrupt
        = (history ++ [HEntry.mk Role.user message], false, none) := by
  intro history message h1 h2 h3
  constructor <;> simp [process_message_model, h1, h2, Nat.not_lt.mpr h3]

/-- Witness for the amended C8, starting from a non-empty history. -/
theorem c8_cancel_history_amended_witness :
    process_message_model [HEntry.mk Role.assistant "hello"]
        "hey friend please write a function" ExecEvent.keyboardInterrupt
      = ([HEntry.mk Role.assistant "hello",
          HEntry.mk Role.user "hey friend please write a function"], false, none) :=
  (c8_cancel_history_amended [HEntry.mk Role.assistant "hello"]
      "hey friend please write a function" (by decide) (by decide) (by decide)).2

/-- Characterization of the backwards scan over indices below `n`: `none`
means no scanned entry matches a trigger, and `some i` returns the largest
matching index below `n`. -/
theorem backscanFrom_spec (buffer : List String) :
    ∀ n : Nat,
      (backscanFrom buffer n = none →
        ∀ j, j < n → check_for_trigger_word (buffer.getD j "") = false) ∧
      (∀ i, backscanFrom buffer n = some i →
        i < n ∧ check_for_trigger_word (buffer.getD i "") = true ∧
          ∀ j, i < j → j < n → check_for_trigger_word (buffer.getD j "") = false) := by
  intro n
  induction n with
  | zero =>
    constructor
    · intro _ j hj
      exact absurd hj (Nat.not_lt_zero j)
    · intro i hi
      simp [backscanFrom] at hi
  | succ n ih =>
    constructor
    · intro hnone j hj
      rw [backscanFrom] at hnone
      by_cases hc : check_for_trigger_word (buffer.getD n "") = true
      · rw [if_pos hc] at hnone
        exact absurd hnone (by simp)
      · rw [if_neg hc] at hnone
        rcases Nat.lt_succ_iff_lt_or_eq.mp hj with h | h
        · exact ih.1 hnone j h
        · rw [h]
          exact Bool.eq_false_iff.mpr hc
    · intro i hi
      rw [backscanFrom] at hi
      by_cases hc : check_for_trigger_word (buffer.getD n "") = true
      · rw [if_pos hc] at hi
        injection hi with h
        subst h
        exact ⟨Nat.lt_succ_self _, hc, fun j hj1 hj2 => absurd hj1 (by omega)⟩
      · rw [if_neg hc] at hi
        obtain ⟨hlt, hhit, hrec⟩ := ih.2 i hi
        refine ⟨Nat.lt_succ_of_lt hlt, hhit, fun j hj1 hj2 => ?_⟩
        rcases Nat.lt_succ_iff_lt_or_eq.mp hj2 with h | h
        · exact hrec j hj1 h
        · rw [h]
          exact Bool.eq_false_iff.mpr hc

/-- C1: when the final transcript does not itself match a trigger,
finalization back-scans the buffer for the most recent entry matching a
trigger (the returned index matches while every later entry does not); when
that entry is within the last 5 buffer entries the command is the
de-duplicated concatenation from it onward followed by the final text, and
when it is further back than 5 entries, or no entry matches at all, the
final text alone is returned. -/
theorem c1_backscan_finalization :
    ∀ (buffer : List String) (text : String),
      check_for_trigger_word text = false →
      ((backscanIdx buffer = none → finalizeCommand buffer text = text) ∧
       (∀ idx, backscanIdx buffer = some idx →
          check_for_trigger_word (buffer.getD idx "") = true ∧
          (∀ j, idx < j → j < buffer.length →
            check_for_trigger_word (buffer.getD j "") = false) ∧
          (buffer.length - idx ≤ 5 →
            finalizeCommand buffer text
              = joinSpace (dedupKeep (buffer.drop idx) ++ [text])) ∧
          (5 < buffer.length - idx → finalizeCommand buffer text = text))) := by
  intro buffer text ht
  constructor
  · intro hnone
    unfold finalizeCommand
    rw [ht, hnone]
    split <;> rfl
  · intro idx hsome
    have hsome' : backscanFrom buffer buffer.length = some idx := hsome
    obtain ⟨hlt, hhit, hrec⟩ := (backscanFrom_spec buffer buffer.length).2 idx hsome'
    have hne : buffer.isEmpty = false := by
      cases buffer with
      | nil => exact absurd hlt (by simp)
      | cons a l => rfl
    refine ⟨hhit, hrec, ?_, ?_⟩
    · intro hle
      simp [finalizeCommand, ht, hne, hsome, hle]
    · intro hgt
      simp [finalizeCommand, ht, hne, hsome, Nat.not_le.mpr hgt]

/-- Witness for C1 at the specification example buffer with final text
`"a function"`; the most recent trigger entry is index 2 (`"help me write"`,
matching via the word `help`). -/
theorem c1_backscan_finalization_witness :
    finalizeCommand ["hey", "friend can you", "help me write"] "a function"
      = joinSpace (dedupKeep ((["hey", "friend can you", "help me write"] : List String).drop 2)
          ++ ["a function"]) :=
  (((c1_backscan_finalization ["hey", "friend can you", "help me write"] "a function"
      (by decide)).2 2 (by decide)).2.2.1 (by decide))

/-- Shifting the keep-condition of the de-duplication loop across a cons cell. -/
theorem keepAt_cons (x : String) (l : List String) (i : Nat) :
    keepAt (x :: l) (i + 1) = keepAt l i := by
  unfold keepAt
  have h1 : (x :: l).getD (i + 1 + 1) "" = l.getD (i + 1) "" := List.getD_cons_succ
  have h2 : (x :: l).getD (i + 1) "" = l.getD i "" := List.getD_cons_succ
  rw [h1, h2]
  congr 1
  rw [decide_eq_decide]
  simp only [List.length_cons]
  omega

/-- Shifting the indexed selection of kept positions across a cons cell. -/
theorem dedupIndices_shift (x : String) (l : List String) :
    (List.filter (keepAt (x :: l)) (List.map Nat.succ (List.range l.length))).map
        (fun i => (x :: l).getD i "")
      = dedupIndices l := by
  rw [List.filter_map, List.map_map]
  unfold dedupIndices
  rw [@List.filter_congr _ (keepAt (x :: l) ∘ Nat.succ) (keepAt l) (List.range l.length)
       (fun a _ => keepAt_cons x l a)]
  exact List.map_congr_left fun a _ => List.getD_cons_succ

/-- Unfolding the indexed selection on a two-or-more element list. -/
theorem dedupIndices_cons (x y : String) (rest : List String) :
    dedupIndices (x :: y :: rest)
      = (if strContainsSub y x then [] else [x]) ++ dedupIndices (y :: rest) := by
  have hk0 : keepAt (x :: y :: rest) 0 = !strContainsSub y x := by
    have hlen : ¬(0 + 1 ≥ (x :: y :: rest).length) := by
      simp only [List.length_cons]
      omega
    unfold keepAt
    rw [decide_eq_false hlen]
    rfl
  have hbase : dedupIndices (x :: y :: rest)
      = (if keepAt (x :: y :: rest) 0 then [x] else [])
          ++ (List.filter (keepAt (x :: y :: rest))
                (List.map Nat.succ (List.range (y :: rest).length))).map
              (fun i => (x :: y :: rest).getD i "") := by
    unfold dedupIndices
    rw [show (x :: y :: rest).length = (y :: rest).length + 1 from rfl,
        List.range_succ_eq_map, List.filter_cons]
    by_cases h0 : keepAt (x :: y :: rest) 0 = true
    · rw [if_pos h0, if_pos h0]
      rfl
    · rw [if_neg h0, if_neg h0]
      rfl
  rw [hbase, dedupIndices_shift x (y :: rest), hk0]
  cases hs : strContainsSub y x <;> rfl

/-- The de-duplication loop keeps exactly the positions allowed by `keepAt`:
a buffer entry is dropped precisely when it is a substring of its immediate
successor in the selected range. -/
theorem dedupKeep_eq_dedupIndices : ∀ l : List String, dedupKeep l = dedupIndices l := by
  intro l
  induction l with
  | nil => rfl
  | cons x l ih =>
    cases l with
    | nil =>
      show dedupKeep [x] = dedupIndices [x]
      rfl
    | cons y rest =>
      rw [show dedupKeep (x :: y :: rest)
            = if strContainsSub y x then dedupKeep (y :: rest)
              else x :: dedupKeep (y :: rest) from rfl,
          dedupIndices_cons]
      by_cases hsub : strContainsSub y x = true
      · rw [if_pos hsub, if_pos hsub, ih]
        rfl
      · rw [if_neg hsub, if_neg hsub, ih]
        rfl

/-- The last entry of the selected range always survives de-duplication. -/
theorem dedupKeep_last : ∀ (l : List String) (x : String),
    (dedupKeep (l ++ [x])).getLast? = some x := by
  intro l x
  induction l with
  | nil => rfl
  | cons a l ih =>
    cases l with
    | nil =>
      show (dedupKeep [a, x]).getLast? = some x
      rw [show dedupKeep [a, x]
            = if strContainsSub x a then dedupKeep [x] else a :: dedupKeep [x] from rfl]
      by_cases h : strContainsSub x a = true
      · rw [if_pos h]
        rfl
      · rw [if_neg h]
        rfl
    | cons b rest =>
      show (dedupKeep (a :: b :: (rest ++ [x]))).getLast? = some x
      have ih' : (dedupKeep (b :: (rest ++ [x]))).getLast? = some x := ih
      rw [show dedupKeep (a :: b :: (rest ++ [x]))
            = if strContainsSub b a then dedupKeep (b :: (rest ++ [x]))
              else a :: dedupKeep (b :: (rest ++ [x])) from rfl]
      by_cases h : strContainsSub b a = true
      · rw [if_pos h]
        exact ih'
      · rw [if_neg h]
        cases hd : dedupKeep (b :: (rest ++ [x])) with
        | nil =>
          rw [hd] at ih'
          simp at ih'
        | cons c cs =>
          rw [hd] at ih'
          rw [List.getLast?_cons_cons]
          exact ih'

/-- String concatenation acts as list concatenation on the character data. -/
theorem strData_append (a b : String) : (a ++ b).data = a.data ++ b.data := rfl

/-- The last part of a space-join is a suffix of the join. -/
theorem joinSpace_suffix : ∀ (ys : List String) (t : String),
    t.data <:+ (joinSpace (ys ++ [t])).data := by
  intro ys t
  induction ys with
  | nil => exact List.suffix_refl _
  | cons y ys ih =>
    show t.data <:+ (joinSpace (y :: (ys ++ [t]))).data
    obtain ⟨z, zs, hz⟩ : ∃ z zs, ys ++ [t] = z :: zs := by
      cases hys : ys ++ [t] with
      | nil => exact absurd hys (by simp)
      | cons z zs => exact ⟨z, zs, rfl⟩
    rw [hz]
    rw [show joinSpace (y :: z :: zs) = y ++ " " ++ joinSpace (z :: zs) from rfl]
    rw [hz] at ih
    rw [strData_append]
    exact ih.trans (List.suffix_append _ _)

/-- The text of the final transcript is always a verbatim suffix of the assembled
command, in every branch of finalization. -/
theorem finalize_suffix : ∀ (buffer : List String) (text : String),
    text.data <:+ (finalizeCommand buffer text).data := by
  intro buffer text
  unfold finalizeCommand
  split
  · cases hb : backscanIdx buffer with
    | none => exact List.suffix_refl _
    | some idx =>
      show text.data <:+
        (if buffer.length - idx ≤ 5 then joinSpace (dedupKeep (List.drop idx buffer) ++ [text])
         else text).data
      by_cases hle : buffer.length - idx ≤ 5
      · rw [if_pos hle]
        exact joinSpace_suffix _ _
      · rw [if_neg hle]
  · exact List.suffix_refl _

/-- C10 counterexample: in the range `["go", "go on", "go"]` the entry `"go"`
is repeated non-adjacently, yet its first occurrence is dropped (being a
substring of its immediate successor `"go on"`): it occurs twice in the range
but only once after de-duplication — refuting the claim that a non-adjacently
repeated entry is retained at each occurrence. -/
theorem c10_dedup_counterexample :
    dedupKeep ["go", "go on", "go"] = ["go on", "go"] ∧
    (["go", "go on", "go"] : List String).count "go" = 2 ∧
    (dedupKeep ["go", "go on", "go"]).count "go" = 1 := by
  refine ⟨by decide, by decide, by decide⟩

/-- C10 amended: de-duplication drops an entry exactly when it is a substring
of its immediate successor in the selected range (index-level
characterization); the last selected entry is never dropped; the final
transcript always appears verbatim as a suffix of the assembled command; and
an entry occurrence is retained whenever it is not a substring of its
immediate successor — in particular a repeat of a non-adjacent entry is never
dropped merely for being a duplicate. -/
theorem c10_dedup_amended :
    (∀ l : List String, dedupKeep l = dedupIndices l) ∧
    (∀ (l : List String) (x : String), (dedupKeep (l ++ [x])).getLast? = some x) ∧
    (∀ (buffer : List String) (text : String),
        text.data <:+ (finalizeCommand buffer text).data) ∧
    (∀ (l : List String) (i : Nat), i < l.length → keepAt l i = true →
        l.getD i "" ∈ dedupKeep l) := by
  refine ⟨dedupKeep_eq_dedupIndices, dedupKeep_last, finalize_suffix, ?_⟩
  intro l i h1 h2
  rw [dedupKeep_eq_dedupIndices]
  unfold dedupIndices
  exact List.mem_map.mpr ⟨i, List.mem_filter.mpr ⟨List.mem_range.mpr h1, h2⟩, rfl⟩

/-- Witness for the amended C10 at concrete ranges. -/
theorem c10_dedup_amended_witness :
    dedupKeep ["hey", "hey friend"] = dedupIndices ["hey", "hey friend"] ∧
    (dedupKeep (["hey"] ++ ["home"])).getLast? = some "home" ∧
    "home".data <:+ (finalizeCommand ["hey friend please", "go"] "home").data ∧
    ("go on" ∈ dedupKeep ["go", "go on", "go"]) :=
  ⟨c10_dedup_amended.1 ["hey", "hey friend"],
   c10_dedup_amended.2.1 ["hey"] "home",
   c10_dedup_amended.2.2.1 ["hey friend please", "go"] "home",
   c10_dedup_amended.2.2.2 ["go", "go on", "go"] 1 (by decide) (by decide)⟩
